import Mathlib

/-!
Verification of the gaze-analytics core of the webcam gaze web application.

The analytics module (fixation detection via the I-DT algorithm, AOI matching,
dwell-time statistics, scanpath metrics, first-fixation metrics and CSV export)
is embedded shallowly: JavaScript numbers are modelled as exact rationals `ℚ`,
arrays as `List`, JavaScript `Map` (insertion-ordered) as association lists,
and `Array.prototype.sort` with an ascending comparator as a stable insertion
sort.  The source compares Euclidean distances (`Math.sqrt(dx*dx+dy*dy)`)
against non-negative accumulators and thresholds; since `√m ≤ t ↔ (0 ≤ t ∧
m ≤ t*t)` for `m ≥ 0` and `√a ≤ √b ↔ a ≤ b`, every comparison the code makes
on distances is carried exactly on squared distances, keeping all definitions
inside `ℚ` and hence executable.
-/

/-- One raw gaze observation, from the `GazePoint` interface:
timestamp (seconds), frameNumber, normalized x/y, absolute screenX/screenY. -/
structure GazePoint where
  timestamp : ℚ
  frameNumber : ℤ
  x : ℚ
  y : ℚ
  screenX : ℚ
  screenY : ℚ
deriving DecidableEq, Repr

/-- A detected fixation, from the `Fixation` interface. -/
structure Fixation where
  id : ℕ
  startTime : ℚ
  endTime : ℚ
  duration : ℚ
  x : ℚ
  y : ℚ
  pointCount : ℕ
  points : List GazePoint
deriving DecidableEq, Repr

/-- Rectangle bounds of an AOI (`bounds` field of the `AOI` interface). -/
structure AOIBounds where
  x : ℚ
  y : ℚ
  width : ℚ
  height : ℚ
deriving DecidableEq, Repr

/-- An Area of Interest, from the `AOI` interface. -/
structure AOI where
  id : String
  name : String
  color : String
  bounds : AOIBounds
deriving DecidableEq, Repr

/-- Per-AOI dwell-time record, from the `DwellTimeStats` interface. -/
structure DwellTimeStats where
  aoiId : String
  aoiName : String
  totalDwellTime : ℚ
  fixationCount : ℕ
  meanFixationDuration : ℚ
  percentOfTotal : ℚ
deriving DecidableEq, Repr

/-- Scanpath metrics, from the `ScanpathMetrics` interface.  The source stores
`totalLength` and `meanSaccadeAmplitude`, which are sums/means of square roots
and hence irrational in general; we instead store the list of squared saccade
amplitudes (`saccadeAmplitudesSq`), from which both are determined
(`totalLength` is the sum of their square roots, `meanSaccadeAmplitude` that
sum divided by the list length).  The transition matrix `Map<string,
Map<string, number>>` is an insertion-ordered association list. -/
structure ScanpathMetrics where
  saccadeAmplitudesSq : List ℚ
  fixationCount : ℕ
  totalDuration : ℚ
  meanFixationDuration : ℚ
  aoiSequence : List String
  aoiTransitionMatrix : List (String × List (String × ℕ))
deriving DecidableEq, Repr

/-- Per-AOI first-fixation record, from the `FirstFixationMetrics` interface. -/
structure FirstFixationMetrics where
  aoiId : String
  aoiName : String
  timeToFirstFixation : Option ℚ
  firstFixationDuration : Option ℚ
  firstFixationX : Option ℚ
  firstFixationY : Option ℚ
  entryCount : ℕ
deriving DecidableEq, Repr

/-- The `parameters` field of `AnalysisResult`. -/
structure AnalysisParameters where
  dispersionThreshold : ℚ
  minFixationDuration : ℚ
deriving DecidableEq, Repr

/-- The combined `AnalysisResult`. -/
structure AnalysisResult where
  fixations : List Fixation
  dwellTimeStats : List DwellTimeStats
  scanpathMetrics : ScanpathMetrics
  firstFixationMetrics : List FirstFixationMetrics
  parameters : AnalysisParameters
deriving DecidableEq, Repr

/-- The optional `options` argument of `analyzeGazeData`. -/
structure AnalysisOptions where
  dispersionThreshold : Option ℚ
  minFixationDuration : Option ℚ
  videoStartTime : Option ℚ
deriving DecidableEq, Repr

/-- Embeds `const DEFAULT_DISPERSION_THRESHOLD = 0.03`. -/
def DEFAULT_DISPERSION_THRESHOLD : ℚ := 3 / 100

/-- Embeds `const DEFAULT_MIN_FIXATION_DURATION = 100`. -/
def DEFAULT_MIN_FIXATION_DURATION : ℚ := 100

/-- Placeholder gaze point used as the default of `List.getD`; all accesses in
the embedded loops are in bounds, mirroring the source's direct indexing. -/
def dummyGaze : GazePoint := ⟨0, 0, 0, 0, 0, 0⟩

/-- Squared Euclidean distance between two gaze points; the source computes
`Math.sqrt(dx*dx + dy*dy)`, whose square this is. -/
def distSq (p q : GazePoint) : ℚ :=
  (p.x - q.x) * (p.x - q.x) + (p.y - q.y) * (p.y - q.y)

/-- Inner loop of `calculateDispersion`: fold `max` over the squared distances
from `p` to each later point.  Because all distances are non-negative and
squaring is monotone there, taking the maximum of squared distances selects
exactly the same pairs as the source's maximum of square-rooted distances. -/
def maxDistSqFrom (p : GazePoint) (rest : List GazePoint) (acc : ℚ) : ℚ :=
  rest.foldl (fun m q => max m (distSq p q)) acc

/-- Both loops of `calculateDispersion`, carrying the running maximum. -/
def maxDistSqAux : List GazePoint → ℚ → ℚ
  | [], m => m
  | p :: rest, m => maxDistSqAux rest (maxDistSqFrom p rest m)

/-- Embeds `calculateDispersion(points)` squared: the maximum pairwise squared
Euclidean distance, `0` for fewer than two points (the source returns `0`
there and otherwise the maximum pairwise `Math.sqrt` distance, which is the
square root of this value). -/
def calculateDispersionSq (points : List GazePoint) : ℚ :=
  if points.length < 2 then 0 else maxDistSqAux points 0

/-- The comparison `calculateDispersion(points) <= t` of the source, carried
exactly on squared values: the dispersion is `√(calculateDispersionSq points)`
with a non-negative radicand, and `√m ≤ t ↔ (0 ≤ t ∧ m ≤ t * t)`. -/
def dispOk (points : List GazePoint) (t : ℚ) : Bool :=
  decide (0 ≤ t) && decide (calculateDispersionSq points ≤ t * t)

/-- Embeds `calculateCentroid(points)`: arithmetic mean of x and y, `(0,0)` when
empty. -/
def calculateCentroid (points : List GazePoint) : ℚ × ℚ :=
  if points.length = 0 then (0, 0)
  else ((points.map (fun p => p.x)).sum / (points.length : ℚ),
        (points.map (fun p => p.y)).sum / (points.length : ℚ))

/-- Ascending timestamp order on gaze points, the comparator
`(a, b) => a.timestamp - b.timestamp` of the source's sort call. -/
def gazeLE (a b : GazePoint) : Prop := a.timestamp ≤ b.timestamp

instance : DecidableRel gazeLE :=
  fun a b => inferInstanceAs (Decidable (a.timestamp ≤ b.timestamp))

instance : IsTotal GazePoint gazeLE :=
  ⟨fun a b => le_total a.timestamp b.timestamp⟩

instance : IsTrans GazePoint gazeLE :=
  ⟨fun _ _ _ h h2 => le_trans h h2⟩

/-- Embeds `[...gazePoints].sort((a, b) => a.timestamp - b.timestamp)`: a stable
ascending sort by timestamp (`Array.prototype.sort` is stable), modelled by
stable insertion sort. -/
def sortPoints (gazePoints : List GazePoint) : List GazePoint :=
  gazePoints.insertionSort gazeLE

/-- Timestamp of the point at index `i` (`sortedPoints[i].timestamp`). -/
def tsAt (pts : List GazePoint) (i : ℕ) : ℚ :=
  (pts.getD i dummyGaze).timestamp

/-- Models `array.slice(s, e)`: the elements at indices `s ≤ i < e`. -/
def jsSlice (pts : List GazePoint) (s e : ℕ) : List GazePoint :=
  (pts.drop s).take (e - s)

/-- The first inner `while` of `detectFixationsIDT`: advance `windowEnd` from
its current value while it is in bounds and the window's time span is still
below the minimum duration.  The loop advances `windowEnd` by one each
iteration and never beyond `pts.length`, so `pts.length + 1` fuel (supplied by
`findWindowEnd`) always suffices. -/
def findWindowEndAux (pts : List GazePoint) (minDuration : ℚ) (ws : ℕ) :
    ℕ → ℕ → ℕ
  | 0, we => we
  | fuel + 1, we =>
    if we < pts.length ∧ (tsAt pts we - tsAt pts ws) * 1000 < minDuration then
      findWindowEndAux pts minDuration ws fuel (we + 1)
    else we

/-- Value of `windowEnd` after the first inner `while` of
`detectFixationsIDT`, started
from `windowEnd = windowStart`. -/
def findWindowEnd (pts : List GazePoint) (minDuration : ℚ) (ws : ℕ) : ℕ :=
  findWindowEndAux pts minDuration ws (pts.length + 1) ws

/-- The greedy expansion `while` of `detectFixationsIDT`: while `windowEnd + 1`
is in bounds and the window extended by one more point still has dispersion
within the threshold, advance `windowEnd`.  As above, `windowEnd` grows by one
per iteration and stays below `pts.length`, so `pts.length + 1` fuel (supplied
by `expandWindow`) always suffices. -/
def expandWindowAux (pts : List GazePoint) (t : ℚ) (ws : ℕ) : ℕ → ℕ → ℕ
  | 0, we => we
  | fuel + 1, we =>
    if we + 1 < pts.length ∧ dispOk (jsSlice pts ws (we + 2)) t then
      expandWindowAux pts t ws fuel (we + 1)
    else we

/-- Value of `windowEnd` after the greedy expansion loop. -/
def expandWindow (pts : List GazePoint) (t : ℚ) (ws we : ℕ) : ℕ :=
  expandWindowAux pts t ws (pts.length + 1) we

/-- The outer `while (windowStart < sortedPoints.length)` loop of
`detectFixationsIDT`.  Each iteration strictly increases `windowStart`
(either to `windowEnd + 1` with `windowEnd ≥ windowStart`, or by one), so
`pts.length + 1` fuel (supplied by `detectFixationsIDT`) always suffices. -/
def idtLoopAux (pts : List GazePoint) (t minDuration : ℚ) :
    ℕ → ℕ → ℕ → List Fixation
  | 0, _, _ => []
  | fuel + 1, ws, fid =>
    if ws < pts.length then
      let we := findWindowEnd pts minDuration ws
      if we < pts.length then
        if dispOk (jsSlice pts ws (we + 1)) t then
          let we2 := expandWindow pts t ws we
          let wp := jsSlice pts ws (we2 + 1)
          let c := calculateCentroid wp
          let st := (wp.headD dummyGaze).timestamp
          let et := (wp.getLastD dummyGaze).timestamp
          let dur := (et - st) * 1000
          if minDuration ≤ dur then
            { id := fid, startTime := st, endTime := et, duration := dur,
              x := c.1, y := c.2, pointCount := wp.length, points := wp }
              :: idtLoopAux pts t minDuration fuel (we2 + 1) (fid + 1)
          else
            idtLoopAux pts t minDuration fuel (we2 + 1) fid
        else
          idtLoopAux pts t minDuration fuel (ws + 1) fid
      else []
    else []

/-- Embeds `detectFixationsIDT(gazePoints, dispersionThreshold, minDuration)`:
fewer than two points yield `[]`; otherwise run the I-DT sliding-window loop
over the timestamp-sorted copy of the input, with ids starting at 1. -/
def detectFixationsIDT (gazePoints : List GazePoint)
    (dispersionThreshold minDuration : ℚ) : List Fixation :=
  if gazePoints.length < 2 then []
  else
    idtLoopAux (sortPoints gazePoints) dispersionThreshold minDuration
      ((sortPoints gazePoints).length + 1) 0 1

/-- Embeds `isPointInAOI(x, y, aoi)`: the inclusive rectangle containment
test. -/
def isPointInAOI (x y : ℚ) (aoi : AOI) : Bool :=
  decide (aoi.bounds.x ≤ x) && decide (x ≤ aoi.bounds.x + aoi.bounds.width) &&
    decide (aoi.bounds.y ≤ y) && decide (y ≤ aoi.bounds.y + aoi.bounds.height)

/-- Embeds `findAOIForFixation(fixation, aois)`: the first AOI in list order
containing the fixation's centroid, `null` (here `none`) if none. -/
def findAOIForFixation (fixation : Fixation) (aois : List AOI) : Option AOI :=
  aois.find? (fun aoi => isPointInAOI fixation.x fixation.y aoi)

/-- Embeds `calculateDwellTime(fixations, aois)`: one record per AOI in
input order
(each AOI independently collects every fixation whose centroid it contains),
followed by the synthetic `"Outside AOIs"` record for fixations contained in
no AOI. -/
def calculateDwellTime (fixations : List Fixation) (aois : List AOI) :
    List DwellTimeStats :=
  let totalViewingTime := (fixations.map (fun f => f.duration)).sum
  let stats := aois.map (fun aoi =>
    let aoiFixations := fixations.filter (fun f => isPointInAOI f.x f.y aoi)
    let totalDwellTime := (aoiFixations.map (fun f => f.duration)).sum
    let fixationCount := aoiFixations.length
    { aoiId := aoi.id, aoiName := aoi.name, totalDwellTime := totalDwellTime,
      fixationCount := fixationCount,
      meanFixationDuration :=
        if 0 < fixationCount then totalDwellTime / (fixationCount : ℚ) else 0,
      percentOfTotal :=
        if 0 < totalViewingTime then totalDwellTime / totalViewingTime * 100
        else 0 : DwellTimeStats })
  let outsideFixations := fixations.filter
    (fun f => !(aois.any (fun aoi => isPointInAOI f.x f.y aoi)))
  let outsideDwellTime := (outsideFixations.map (fun f => f.duration)).sum
  stats ++ [{ aoiId := "__outside__", aoiName := "Outside AOIs",
              totalDwellTime := outsideDwellTime,
              fixationCount := outsideFixations.length,
              meanFixationDuration :=
                if 0 < outsideFixations.length then
                  outsideDwellTime / (outsideFixations.length : ℚ)
                else 0,
              percentOfTotal :=
                if 0 < totalViewingTime then
                  outsideDwellTime / totalViewingTime * 100
                else 0 }]

/-- Ascending start-time order on fixations, the comparator
`(a, b) => a.startTime - b.startTime` used by the scanpath and first-fixation
sort calls. -/
def fixLE (a b : Fixation) : Prop := a.startTime ≤ b.startTime

instance : DecidableRel fixLE :=
  fun a b => inferInstanceAs (Decidable (a.startTime ≤ b.startTime))

instance : IsTotal Fixation fixLE :=
  ⟨fun a b => le_total a.startTime b.startTime⟩

instance : IsTrans Fixation fixLE :=
  ⟨fun _ _ _ h h2 => le_trans h h2⟩

/-- Embeds `[...fixations].sort((a, b) => a.startTime - b.startTime)`: stable
ascending sort by start time. -/
def sortFixations (fixations : List Fixation) : List Fixation :=
  fixations.insertionSort fixLE

/-- The expression `aoi ? aoi.name : "__outside__"` applied to
`findAOIForFixation(fixation, aois)`, used by `calculateScanpathMetrics` for
both the AOI sequence and the transition-matrix keys. -/
def scanpathAOILabel (fixation : Fixation) (aois : List AOI) : String :=
  match findAOIForFixation fixation aois with
  | some aoi => aoi.name
  | none => "__outside__"

/-- Models `map.get(k)` on an insertion-ordered association list: the value
at the
first (and only) occurrence of the key. -/
def mapGet? {β : Type} (m : List (String × β)) (k : String) : Option β :=
  (m.find? (fun p => p.1 = k)).map (fun p => p.2)

/-- Models `map.has(k)`. -/
def mapHas {β : Type} (m : List (String × β)) (k : String) : Bool :=
  m.any (fun p => p.1 = k)

/-- Models `map.set(k, v)` on an insertion-ordered association list: update
the first
occurrence of the key in place, or append a new entry at the end. -/
def mapSet {β : Type} (m : List (String × β)) (k : String) (v : β) :
    List (String × β) :=
  match m with
  | [] => [(k, v)]
  | (k2, v2) :: rest =>
    if k2 = k then (k, v) :: rest else (k2, v2) :: mapSet rest k v

/-- One iteration of the transition-matrix loop of
`calculateScanpathMetrics`: ensure a row for the previous label exists, then
increment the cell for the current label. -/
def bumpTransition (m : List (String × List (String × ℕ)))
    (prevName currName : String) : List (String × List (String × ℕ)) :=
  let m1 := if mapHas m prevName then m else mapSet m prevName []
  let row := (mapGet? m1 prevName).getD []
  let row2 := mapSet row currName (((mapGet? row currName).getD 0) + 1)
  mapSet m1 prevName row2

/-- The AOI-sequence loop of `calculateScanpathMetrics`: resolve each
fixation's label and append it only when it differs from the previous label
(`lastAOI`, initially `null`). -/
def buildAOISequence (aois : List AOI) :
    Option String → List Fixation → List String
  | _, [] => []
  | lastAOI, fixation :: rest =>
    let aoiName := scanpathAOILabel fixation aois
    if lastAOI = some aoiName then buildAOISequence aois (some aoiName) rest
    else aoiName :: buildAOISequence aois (some aoiName) rest

/-- Squared saccade amplitude between consecutive fixation centroids; the
source computes `distance(prev.x, prev.y, curr.x, curr.y)` with `Math.sqrt`,
whose square this is. -/
def saccadeDistSq (prev curr : Fixation) : ℚ :=
  (curr.x - prev.x) * (curr.x - prev.x) + (curr.y - prev.y) * (curr.y - prev.y)

/-- Embeds `calculateScanpathMetrics(fixations, aois)`: all-empty record for
an empty
input; otherwise path/saccade data, the collapsed AOI sequence, and the
transition matrix built from consecutive pairs of start-time-sorted
fixations. -/
def calculateScanpathMetrics (fixations : List Fixation) (aois : List AOI) :
    ScanpathMetrics :=
  if fixations.length = 0 then
    { saccadeAmplitudesSq := [], fixationCount := 0, totalDuration := 0,
      meanFixationDuration := 0, aoiSequence := [], aoiTransitionMatrix := [] }
  else
    let sortedFixations := sortFixations fixations
    let pairs := sortedFixations.zip sortedFixations.tail
    let saccadeAmplitudesSq := pairs.map (fun pc => saccadeDistSq pc.1 pc.2)
    let aoiSequence := buildAOISequence aois none sortedFixations
    let transitionMatrix := pairs.foldl
      (fun m pc =>
        bumpTransition m (scanpathAOILabel pc.1 aois)
          (scanpathAOILabel pc.2 aois))
      []
    let totalDuration := (sortedFixations.map (fun f => f.duration)).sum
    { saccadeAmplitudesSq := saccadeAmplitudesSq,
      fixationCount := sortedFixations.length,
      totalDuration := totalDuration,
      meanFixationDuration := totalDuration / (sortedFixations.length : ℚ),
      aoiSequence := aoiSequence,
      aoiTransitionMatrix := transitionMatrix }

/-- The entry-counting loop of `calculateFirstFixation`: walk the time-ordered
fixations carrying `wasInAOI` (initially `false`), counting each fixation that
is inside the AOI while the previous one was not. -/
def countEntries (aoi : AOI) : Bool → List Fixation → ℕ
  | _, [] => 0
  | wasInAOI, fixation :: rest =>
    let isInAOI := isPointInAOI fixation.x fixation.y aoi
    (if isInAOI && !wasInAOI then 1 else 0) + countEntries aoi isInAOI rest

/-- Embeds `calculateFirstFixation(fixations, aois, videoStartTime)`: one
record per
AOI in input order, with time to / data of the first fixation inside the AOI
(or `null`s) and the entry count. -/
def calculateFirstFixation (fixations : List Fixation) (aois : List AOI)
    (videoStartTime : ℚ) : List FirstFixationMetrics :=
  let sortedFixations := sortFixations fixations
  aois.map (fun aoi =>
    let aoiFixations :=
      sortedFixations.filter (fun f => isPointInAOI f.x f.y aoi)
    let firstFixation := aoiFixations.head?
    { aoiId := aoi.id, aoiName := aoi.name,
      timeToFirstFixation :=
        firstFixation.map (fun f => (f.startTime - videoStartTime) * 1000),
      firstFixationDuration := firstFixation.map (fun f => f.duration),
      firstFixationX := firstFixation.map (fun f => f.x),
      firstFixationY := firstFixation.map (fun f => f.y),
      entryCount := countEntries aoi false sortedFixations })

/-- Calling `analyzeGazeData` with an empty `options` object. -/
def noOptions : AnalysisOptions := ⟨none, none, none⟩

/-- Embeds `analyzeGazeData(gazePoints, aois, options)`: resolve parameter
defaults
with `??`, detect fixations, and compute all metric groups.  The source
performs no input validation of any kind: it proceeds straight to
computation and always returns a full result. -/
def analyzeGazeData (gazePoints : List GazePoint) (aois : List AOI)
    (options : AnalysisOptions) : AnalysisResult :=
  let dispersionThreshold :=
    options.dispersionThreshold.getD DEFAULT_DISPERSION_THRESHOLD
  let minFixationDuration :=
    options.minFixationDuration.getD DEFAULT_MIN_FIXATION_DURATION
  let videoStartTime := options.videoStartTime.getD 0
  let fixations :=
    detectFixationsIDT gazePoints dispersionThreshold minFixationDuration
  { fixations := fixations,
    dwellTimeStats := calculateDwellTime fixations aois,
    scanpathMetrics := calculateScanpathMetrics fixations aois,
    firstFixationMetrics :=
      calculateFirstFixation fixations aois videoStartTime,
    parameters := ⟨dispersionThreshold, minFixationDuration⟩ }

/-- The `aoi` cell of one row of the fixations CSV in `analysisToCSV`:
`aois.find(a => isPointInAOI(f.x, f.y, a))` rendered as `aoi ? aoi.name :
"outside"`.  The other cells of the row are fixed-precision renderings of the
fixation's numeric fields and never mention the sentinel. -/
def fixationCSVAOICell (f : Fixation) (aois : List AOI) : String :=
  match aois.find? (fun a => isPointInAOI f.x f.y a) with
  | some a => a.name
  | none => "outside"

/-- Restatement of the specification's `entryCount` semantics, written from
the spec's words and not from the source: the number of rising edges of the
membership Boolean sequence, the initial state being outside.  Position `i`
is a rising edge when `bs[i]` is true and its predecessor (`false` for
`i = 0`) is false. -/
def specRisingEdgeCount (bs : List Bool) : ℕ :=
  ((false :: bs).zip bs).countP (fun p => p.2 && !p.1)

/-- Sum of every count stored in a transition matrix. -/
def matrixTotal (m : List (String × List (String × ℕ))) : ℕ :=
  (m.map (fun row => (row.2.map (fun cell => cell.2)).sum)).sum

/-- Concrete gaze samples (the specification's worked scenario): three points
within dispersion 0.03 spanning 120 ms. -/
def wP1 : GazePoint := ⟨0, 0, 1/2, 1/2, 0, 0⟩

/-- Second sample of the worked scenario. -/
def wP2 : GazePoint := ⟨1/20, 1, 51/100, 49/100, 0, 0⟩

/-- Third sample of the worked scenario. -/
def wP3 : GazePoint := ⟨3/25, 2, 1/2, 1/2, 0, 0⟩

/-- The worked scenario's input stream. -/
def wGps : List GazePoint := [wP1, wP2, wP3]

/-- The fixation detected on `wGps` with the default parameters. -/
def wFix : Fixation :=
  ⟨1, 0, 3/25, 120, 151/300, 149/300, 3, [wP1, wP2, wP3]⟩

theorem findWindowEndAux_ge (pts : List GazePoint) (minDuration : ℚ)
    (ws : ℕ) : ∀ fuel we, we ≤ findWindowEndAux pts minDuration ws fuel we := by
  intro fuel
  induction fuel with
  | zero => intro we; exact le_refl we
  | succ n ih =>
    intro we
    rw [findWindowEndAux]
    split
    · exact le_trans (Nat.le_succ we) (ih (we + 1))
    · exact le_refl we

theorem findWindowEnd_ge (pts : List GazePoint) (minDuration : ℚ) (ws : ℕ) :
    ws ≤ findWindowEnd pts minDuration ws :=
  findWindowEndAux_ge pts minDuration ws (pts.length + 1) ws

theorem expandWindowAux_ge (pts : List GazePoint) (t : ℚ) (ws : ℕ) :
    ∀ fuel we, we ≤ expandWindowAux pts t ws fuel we := by
  intro fuel
  induction fuel with
  | zero => intro we; exact le_refl we
  | succ n ih =>
    intro we
    rw [expandWindowAux]
    split
    · exact le_trans (Nat.le_succ we) (ih (we + 1))
    · exact le_refl we

theorem expandWindow_ge (pts : List GazePoint) (t : ℚ) (ws we : ℕ) :
    we ≤ expandWindow pts t ws we :=
  expandWindowAux_ge pts t ws (pts.length + 1) we

theorem expandWindowAux_dispOk (pts : List GazePoint) (t : ℚ) (ws : ℕ) :
    ∀ fuel we, dispOk (jsSlice pts ws (we + 1)) t = true →
      dispOk (jsSlice pts ws (expandWindowAux pts t ws fuel we + 1)) t = true := by
  intro fuel
  induction fuel with
  | zero => intro we h; exact h
  | succ n ih =>
    intro we h
    rw [expandWindowAux]
    split
    · next hc => exact ih (we + 1) hc.2
    · exact h

theorem expandWindow_dispOk (pts : List GazePoint) (t : ℚ) (ws we : ℕ)
    (h : dispOk (jsSlice pts ws (we + 1)) t = true) :
    dispOk (jsSlice pts ws (expandWindow pts t ws we + 1)) t = true :=
  expandWindowAux_dispOk pts t ws (pts.length + 1) we h

theorem idtLoopAux_props (pts : List GazePoint) (t d : ℚ) :
    ∀ fuel ws fid f, f ∈ idtLoopAux pts t d fuel ws fid →
      d ≤ f.duration ∧ dispOk f.points t = true := by
  intro fuel
  induction fuel with
  | zero => intro ws fid f hf; simp [idtLoopAux] at hf
  | succ n ih =>
    intro ws fid f hf
    simp only [idtLoopAux] at hf
    split at hf
    · split at hf
      · split at hf
        · next h3 =>
          split at hf
          · next h4 =>
            rcases List.mem_cons.mp hf with rfl | hf2
            · exact ⟨h4, expandWindow_dispOk pts t ws _ h3⟩
            · exact ih _ _ f hf2
          · exact ih _ _ f hf
        · exact ih _ _ f hf
      · simp at hf
    · simp at hf

/-- The head of a window slice is the point at the window start. -/
theorem jsSlice_headD (pts : List GazePoint) (s e : ℕ) (hse : s < e) :
    (jsSlice pts s e).headD dummyGaze = pts.getD s dummyGaze := by
  unfold jsSlice
  rw [List.headD_eq_head?, List.head?_take, List.head?_drop]
  have h1 : e - s ≠ 0 := Nat.sub_ne_zero_of_lt hse
  rw [if_neg h1]
  rw [List.getD_eq_getElem?_getD]

theorem sorted_tsAt (pts : List GazePoint)
    (hs : List.Sorted gazeLE pts) :
    ∀ i j, i ≤ j → j < pts.length → tsAt pts i ≤ tsAt pts j := by
  intro i j hij hj
  rcases Nat.eq_or_lt_of_le hij with rfl | hlt
  · exact le_refl _
  · have hi : i < pts.length := lt_trans hlt hj
    have hp := List.pairwise_iff_getElem.mp hs i j hi hj hlt
    unfold tsAt
    rw [List.getD_eq_getElem pts dummyGaze hi,
      List.getD_eq_getElem pts dummyGaze hj]
    exact hp

/-- Every fixation produced by the I-DT loop starts at the timestamp of a
point at or after the current window start. -/
theorem idtLoopAux_startTime_mem (pts : List GazePoint) (t d : ℚ) :
    ∀ fuel ws fid f, f ∈ idtLoopAux pts t d fuel ws fid →
      ∃ k, ws ≤ k ∧ k < pts.length ∧ f.startTime = tsAt pts k := by
  intro fuel
  induction fuel with
  | zero => intro ws fid f hf; simp [idtLoopAux] at hf
  | succ n ih =>
    intro ws fid f hf
    simp only [idtLoopAux] at hf
    split at hf
    · next h1 =>
      split at hf
      · split at hf
        · split at hf
          · rcases List.mem_cons.mp hf with rfl | hf2
            · refine ⟨ws, le_refl ws, h1, ?_⟩
              have hlt : ws < expandWindow pts t ws (findWindowEnd pts d ws) + 1 := by
                have h5 := findWindowEnd_ge pts d ws
                have h6 := expandWindow_ge pts t ws (findWindowEnd pts d ws)
                omega
              dsimp only
              rw [jsSlice_headD pts ws _ hlt]
              rfl
            · rcases ih _ _ f hf2 with ⟨k, hk1, hk2, hk3⟩
              refine ⟨k, ?_, hk2, hk3⟩
              have h5 := findWindowEnd_ge pts d ws
              have h6 := expandWindow_ge pts t ws (findWindowEnd pts d ws)
              omega
          · rcases ih _ _ f hf with ⟨k, hk1, hk2, hk3⟩
            refine ⟨k, ?_, hk2, hk3⟩
            have h5 := findWindowEnd_ge pts d ws
            have h6 := expandWindow_ge pts t ws (findWindowEnd pts d ws)
            omega
        · rcases ih _ _ f hf with ⟨k, hk1, hk2, hk3⟩
          exact ⟨k, by omega, hk2, hk3⟩
      · simp at hf
    · simp at hf

theorem idtLoopAux_ids (pts : List GazePoint) (t d : ℚ) :
    ∀ fuel ws fid, (idtLoopAux pts t d fuel ws fid).map Fixation.id
      = List.range' fid (idtLoopAux pts t d fuel ws fid).length := by
  intro fuel
  induction fuel with
  | zero => intro ws fid; simp [idtLoopAux]
  | succ n ih =>
    intro ws fid
    simp only [idtLoopAux]
    split
    · split
      · split
        · split
          · simp only [List.map_cons, List.length_cons]
            rw [ih]
            rfl
          · exact ih _ _
        · exact ih _ _
      · simp
    · simp

theorem idtLoopAux_chain (pts : List GazePoint) (t d : ℚ)
    (hs : List.Sorted gazeLE pts) :
    ∀ fuel ws fid,
      List.Chain' (fun a b : Fixation => a.startTime ≤ b.startTime)
        (idtLoopAux pts t d fuel ws fid) := by
  intro fuel
  induction fuel with
  | zero => intro ws fid; simp [idtLoopAux]
  | succ n ih =>
    intro ws fid
    simp only [idtLoopAux]
    split
    · next h1 =>
      split
      · split
        · split
          · rw [List.chain'_cons']
            refine ⟨?_, ih _ _⟩
            intro b hb
            have hbmem := List.mem_of_mem_head? hb
            rcases idtLoopAux_startTime_mem pts t d n _ _ b hbmem with
              ⟨k, hk1, hk2, hk3⟩
            have hlt : ws <
                expandWindow pts t ws (findWindowEnd pts d ws) + 1 := by
              have h5 := findWindowEnd_ge pts d ws
              have h6 := expandWindow_ge pts t ws (findWindowEnd pts d ws)
              omega
            dsimp only
            rw [jsSlice_headD pts ws _ hlt, hk3]
            exact sorted_tsAt pts hs ws k (by omega) hk2
          · exact ih _ _
        · exact ih _ _
      · trivial
    · trivial

/-- C1: every fixation returned by `detectFixationsIDT` has duration at least
`minDuration`, and the dispersion of its owned points — the square root of
`calculateDispersionSq`, the exact maximum pairwise Euclidean distance — is at
most `dispersionThreshold`: equivalently the threshold is non-negative and the
squared dispersion is at most its square.  The comparison is the source's
inclusive `<=`, so a window whose dispersion equals the threshold exactly
still qualifies. -/
theorem detectFixationsIDT_duration_ge_and_dispersion_le
    (gazePoints : List GazePoint) (t d : ℚ) (f : Fixation)
    (hf : f ∈ detectFixationsIDT gazePoints t d) :
    d ≤ f.duration ∧ 0 ≤ t ∧ calculateDispersionSq f.points ≤ t * t := by
  unfold detectFixationsIDT at hf
  split at hf
  · simp at hf
  · have h := idtLoopAux_props _ t d _ _ _ f hf
    have h2 := h.2
    simp only [dispOk, Bool.and_eq_true, decide_eq_true_eq] at h2
    exact ⟨h.1, h2.1, h2.2⟩

attribute [local semireducible] Rat.add Rat.mul Rat.inv Rat.sub in
/-- Witness for C1 at the specification's worked scenario: three samples
within dispersion, spanning 120 ms, with threshold 0.03 and minimum duration
100 ms. -/
theorem detectFixationsIDT_duration_dispersion_witness :
    wFix ∈ detectFixationsIDT wGps (3/100) 100 ∧
      (100 ≤ wFix.duration ∧ 0 ≤ (3/100 : ℚ) ∧
        calculateDispersionSq wFix.points ≤ (3/100) * (3/100)) :=
  ⟨by decide,
    detectFixationsIDT_duration_ge_and_dispersion_le wGps (3/100) 100 wFix
      (by decide)⟩

/-- C2: the fixation list returned by `detectFixationsIDT` has ids exactly
`1, 2, …` in detection order (hence strictly increasing), and start times
non-decreasing from each fixation to the next. -/
theorem detectFixationsIDT_ids_and_startTimes
    (gazePoints : List GazePoint) (t d : ℚ) :
    (detectFixationsIDT gazePoints t d).map Fixation.id
        = List.range' 1 (detectFixationsIDT gazePoints t d).length
      ∧ List.Chain' (fun a b : Fixation => a.startTime ≤ b.startTime)
        (detectFixationsIDT gazePoints t d) := by
  unfold detectFixationsIDT
  split
  · simp
  · constructor
    · exact idtLoopAux_ids _ t d _ 0 1
    · exact idtLoopAux_chain _ t d
        (List.sorted_insertionSort gazeLE gazePoints) _ 0 1

/-- A fixation lying inside two overlapping AOIs (both unit squares). -/
def c3Fix : Fixation := ⟨1, 0, 1/10, 100, 1/2, 1/2, 3, []⟩

/-- First overlapping AOI. -/
def c3A : AOI := ⟨"a", "A", "red", ⟨0, 0, 1, 1⟩⟩

/-- Second overlapping AOI, same rectangle. -/
def c3B : AOI := ⟨"b", "B", "blue", ⟨0, 0, 1, 1⟩⟩

/-- A single AOI containing `c3Fix`, used as a non-overlapping witness. -/
def c3W : AOI := ⟨"w", "W", "green", ⟨0, 0, 1, 1⟩⟩

theorem sum_map_add {α : Type} (l : List α) (g h : α → ℚ) :
    (l.map (fun a => g a + h a)).sum = (l.map g).sum + (l.map h).sum := by
  induction l with
  | nil => simp
  | cons a l ih =>
    simp only [List.map_cons, List.sum_cons, ih]
    ring

theorem sum_map_ite {α : Type} (l : List α) (p : α → Bool) (c : ℚ) :
    (l.map (fun a => if p a then c else 0)).sum = (l.countP p : ℚ) * c := by
  induction l with
  | nil => simp
  | cons a l ih =>
    simp only [List.map_cons, List.sum_cons, List.countP_cons, ih]
    rcases Bool.eq_false_or_eq_true (p a) with h | h
    · simp only [h, if_true]
      push_cast
      ring
    · simp [h]

theorem sum_map_div_mul {α : Type} (l : List α) (g : α → ℚ) (T : ℚ) :
    (l.map (fun a => g a / T * 100)).sum = (l.map g).sum / T * 100 := by
  induction l with
  | nil => simp
  | cons a l ih =>
    simp only [List.map_cons, List.sum_cons, ih]
    ring

/-- When every fixation is contained in at most one AOI, the per-AOI dwell
sums plus the outside dwell sum partition the total duration. -/
theorem dwell_partition (aois : List AOI) (fs : List Fixation)
    (hdisj : ∀ f ∈ fs, aois.countP (fun a => isPointInAOI f.x f.y a) ≤ 1) :
    (aois.map (fun aoi =>
        ((fs.filter (fun f => isPointInAOI f.x f.y aoi)).map
          (fun f => f.duration)).sum)).sum
      + ((fs.filter (fun f =>
          !(aois.any (fun aoi => isPointInAOI f.x f.y aoi)))).map
          (fun f => f.duration)).sum
    = (fs.map (fun f => f.duration)).sum := by
  induction fs with
  | nil => simp
  | cons f fs ih =>
    have hdf := hdisj f (List.mem_cons_self f fs)
    have hdt : ∀ g ∈ fs, aois.countP (fun a => isPointInAOI g.x g.y a) ≤ 1 :=
      fun g hg => hdisj g (List.mem_cons_of_mem f hg)
    have hstep : ∀ aoi : AOI,
        (((f :: fs).filter (fun g => isPointInAOI g.x g.y aoi)).map
          (fun g => g.duration)).sum
        = (if isPointInAOI f.x f.y aoi then f.duration else 0)
          + ((fs.filter (fun g => isPointInAOI g.x g.y aoi)).map
              (fun g => g.duration)).sum := by
      intro aoi
      rw [List.filter_cons]
      rcases Bool.eq_false_or_eq_true (isPointInAOI f.x f.y aoi) with h | h
      · simp [h]
      · simp [h]
    have hrec := ih hdt
    simp only [hstep, List.map_cons, List.sum_cons]
    rw [sum_map_add, sum_map_ite, List.filter_cons]
    rcases Bool.eq_false_or_eq_true
      (aois.any (fun aoi => isPointInAOI f.x f.y aoi)) with hany | hany
    · have hcount : aois.countP (fun a => isPointInAOI f.x f.y a) = 1 := by
        have hpos2 : 0 < aois.countP (fun a => isPointInAOI f.x f.y a) := by
          rw [List.countP_pos_iff]
          rcases List.any_eq_true.mp hany with ⟨a, ha, hpa⟩
          exact ⟨a, ha, hpa⟩
        omega
      simp only [hany, Bool.not_true, hcount]
      simp only [Bool.false_eq_true, if_false]
      push_cast
      linarith [hrec]
    · have hcount : aois.countP (fun a => isPointInAOI f.x f.y a) = 0 := by
        rw [List.countP_eq_zero]
        intro a ha
        have := List.any_eq_false.mp hany a ha
        simpa using this
      simp only [hany, Bool.not_false, if_true, hcount,
        List.map_cons, List.sum_cons]
      push_cast
      linarith [hrec]

attribute [local semireducible] Rat.add Rat.mul Rat.inv Rat.sub in
/-- C3 counterexample: one fixation whose centroid lies in both of two
overlapping AOIs makes the dwell-time percentages (AOIs plus
`"Outside AOIs"`) sum to 200, not 100, although a fixation exists. -/
theorem calculateDwellTime_percent_sum_overlap_ne :
    ((calculateDwellTime [c3Fix] [c3A, c3B]).map
      (fun s => s.percentOfTotal)).sum ≠ 100 := by decide

/-- C3 as amended: whenever the total fixation duration is positive and no
fixation centroid lies inside more than one of the supplied AOIs (in
particular for non-overlapping AOI lists), the `percentOfTotal` values of the
per-AOI records plus the `"Outside AOIs"` record returned by
`calculateDwellTime` sum to exactly 100. -/
theorem calculateDwellTime_percent_sum
    (fs : List Fixation) (aois : List AOI)
    (hpos : 0 < (fs.map (fun f => f.duration)).sum)
    (hdisj : ∀ f ∈ fs, aois.countP (fun a => isPointInAOI f.x f.y a) ≤ 1) :
    ((calculateDwellTime fs aois).map (fun s => s.percentOfTotal)).sum
      = 100 := by
  have hT : (fs.map (fun f => f.duration)).sum ≠ 0 := ne_of_gt hpos
  simp only [calculateDwellTime, List.map_append, List.sum_append,
    List.map_map, List.map_cons, List.map_nil, List.sum_cons, List.sum_nil,
    Function.comp_def]
  simp only [hpos, if_true]
  rw [sum_map_div_mul]
  have hpart := dwell_partition aois fs hdisj
  have hsplit :
      (aois.map (fun aoi =>
        ((fs.filter (fun f => isPointInAOI f.x f.y aoi)).map
          (fun f => f.duration)).sum)).sum
          / (fs.map (fun f => f.duration)).sum * 100
        + (((fs.filter (fun f =>
            !(aois.any (fun aoi => isPointInAOI f.x f.y aoi)))).map
            (fun f => f.duration)).sum
          / (fs.map (fun f => f.duration)).sum * 100 + 0)
      = ((aois.map (fun aoi =>
          ((fs.filter (fun f => isPointInAOI f.x f.y aoi)).map
            (fun f => f.duration)).sum)).sum
        + ((fs.filter (fun f =>
            !(aois.any (fun aoi => isPointInAOI f.x f.y aoi)))).map
            (fun f => f.duration)).sum)
          / (fs.map (fun f => f.duration)).sum * 100 := by
    ring
  rw [hsplit, hpart, div_self hT, one_mul]

attribute [local semireducible] Rat.add Rat.mul Rat.inv Rat.sub in
/-- Witness for the amended C3: a single fixation inside a single AOI gives
percentages summing to 100. -/
theorem calculateDwellTime_percent_sum_witness :
    (0 < ([c3Fix].map (fun f => f.duration)).sum ∧
      ∀ f ∈ [c3Fix],
        ([c3W].countP (fun a => isPointInAOI f.x f.y a)) ≤ 1) ∧
    ((calculateDwellTime [c3Fix] [c3W]).map
      (fun s => s.percentOfTotal)).sum = 100 :=
  ⟨⟨by decide, by decide⟩,
    calculateDwellTime_percent_sum [c3Fix] [c3W] (by decide) (by decide)⟩

/-- C4: when two AOIs A then B (in caller list order) both contain a
fixation's centroid, `findAOIForFixation` returns A (first match wins) while
`calculateDwellTime` credits both A and B independently with one fixation
each (and the outside record with none). -/
theorem findAOI_first_wins_dwell_credits_both
    (f : Fixation) (A B : AOI)
    (hA : isPointInAOI f.x f.y A = true)
    (hB : isPointInAOI f.x f.y B = true) :
    findAOIForFixation f [A, B] = some A ∧
      (calculateDwellTime [f] [A, B]).map
        (fun s => (s.aoiName, s.fixationCount))
        = [(A.name, 1), (B.name, 1), ("Outside AOIs", 0)] := by
  constructor
  · simp [findAOIForFixation, List.find?, hA]
  · simp [calculateDwellTime, List.filter_cons, hA, hB]

attribute [local semireducible] Rat.add Rat.mul Rat.inv Rat.sub in
/-- Witness for C4 on the concrete overlapping pair. -/
theorem findAOI_first_wins_dwell_credits_both_witness :
    (isPointInAOI c3Fix.x c3Fix.y c3A = true ∧
      isPointInAOI c3Fix.x c3Fix.y c3B = true) ∧
    (findAOIForFixation c3Fix [c3A, c3B] = some c3A ∧
      (calculateDwellTime [c3Fix] [c3A, c3B]).map
        (fun s => (s.aoiName, s.fixationCount))
        = [("A", 1), ("B", 1), ("Outside AOIs", 0)]) :=
  ⟨⟨by decide, by decide⟩,
    findAOI_first_wins_dwell_credits_both c3Fix c3A c3B (by decide)
      (by decide)⟩

/-- A zero-width AOI: a degenerate vertical segment at x = 0, y from 0 to 5. -/
def c5Aoi : AOI := ⟨"z", "Z", "gray", ⟨0, 0, 0, 5⟩⟩

attribute [local semireducible] Rat.add Rat.mul Rat.inv Rat.sub in
/-- C5 counterexample: the claim says an AOI with zero width never matches
any point, but `isPointInAOI` is inclusive on all four edges, so the point
(0, 0) lying on the degenerate segment does match. -/
theorem isPointInAOI_zero_width_matches : isPointInAOI 0 0 c5Aoi = true := by
  decide

/-- A zero-height AOI: a degenerate horizontal segment at y = 0, x from 0
to 5. -/
def c5AoiH : AOI := ⟨"zh", "ZH", "gray", ⟨0, 0, 5, 0⟩⟩

/-- C5 as amended: a degenerate AOI does match points — exactly those of its
degenerate segment.  If its width is zero, `isPointInAOI` accepts exactly the
points with x equal to `bounds.x` and y within the inclusive vertical range;
if its height is zero, exactly the points with y equal to `bounds.y` and x
within the inclusive horizontal range.  Points off the segment never
match. -/
theorem isPointInAOI_degenerate_iff (aoi : AOI) (x y : ℚ) :
    (aoi.bounds.width = 0 →
      (isPointInAOI x y aoi = true ↔
        (x = aoi.bounds.x ∧ aoi.bounds.y ≤ y ∧
          y ≤ aoi.bounds.y + aoi.bounds.height)))
    ∧ (aoi.bounds.height = 0 →
      (isPointInAOI x y aoi = true ↔
        (aoi.bounds.x ≤ x ∧ x ≤ aoi.bounds.x + aoi.bounds.width ∧
          y = aoi.bounds.y))) := by
  constructor
  · intro hw
    simp only [isPointInAOI, hw, add_zero, Bool.and_eq_true,
      decide_eq_true_eq]
    constructor
    · rintro ⟨⟨⟨h1, h2⟩, h3⟩, h4⟩
      exact ⟨le_antisymm h2 h1, h3, h4⟩
    · rintro ⟨rfl, h3, h4⟩
      exact ⟨⟨⟨le_refl _, le_refl _⟩, h3⟩, h4⟩
  · intro hh
    simp only [isPointInAOI, hh, add_zero, Bool.and_eq_true,
      decide_eq_true_eq]
    constructor
    · rintro ⟨⟨⟨h1, h2⟩, h3⟩, h4⟩
      exact ⟨h1, h2, le_antisymm h4 h3⟩
    · rintro ⟨h1, h2, rfl⟩
      exact ⟨⟨⟨h1, h2⟩, le_refl _⟩, le_refl _⟩

attribute [local semireducible] Rat.add Rat.mul Rat.inv Rat.sub in
/-- Witness for the amended C5: the zero-width AOI with the point (0, 3) on
its vertical segment, and the zero-height AOI with the point (3, 0) on its
horizontal segment, each implication discharged at its concrete AOI. -/
theorem isPointInAOI_degenerate_iff_witness :
    (c5Aoi.bounds.width = 0 ∧
      (isPointInAOI 0 3 c5Aoi = true ↔
        ((0 : ℚ) = c5Aoi.bounds.x ∧ c5Aoi.bounds.y ≤ 3 ∧
          (3 : ℚ) ≤ c5Aoi.bounds.y + c5Aoi.bounds.height)))
    ∧ (c5AoiH.bounds.height = 0 ∧
      (isPointInAOI 3 0 c5AoiH = true ↔
        (c5AoiH.bounds.x ≤ 3 ∧ (3 : ℚ) ≤ c5AoiH.bounds.x +
          c5AoiH.bounds.width ∧ (0 : ℚ) = c5AoiH.bounds.y))) :=
  ⟨⟨by decide, (isPointInAOI_degenerate_iff c5Aoi 0 3).1 (by decide)⟩,
    ⟨by decide, (isPointInAOI_degenerate_iff c5AoiH 3 0).2 (by decide)⟩⟩

/-- An AOI with negative width, malformed per the specification. -/
def negAoi : AOI := ⟨"neg", "Neg", "red", ⟨1/2, 1/2, -(1/4), 1/4⟩⟩

attribute [local semireducible] Rat.add Rat.mul Rat.inv Rat.sub in
/-- C6: `analyzeGazeData` performs no input validation whatsoever — its type
has no error channel and no code path rejects anything.  Called on gaze data
producing one fixation together with a negative-width AOI, it silently
computes a full result: the malformed AOI gets an ordinary dwell record with
zero fixations (its inclusive containment test is unsatisfiable) and the
fixation is counted as outside, contradicting the required distinguishable
`InvalidAOI` rejection. -/
theorem analyzeGazeData_negative_width_no_error :
    ((analyzeGazeData wGps [negAoi] noOptions).dwellTimeStats.map
        (fun s => (s.aoiName, s.fixationCount)))
        = [("Neg", 0), ("Outside AOIs", 1)]
      ∧ (analyzeGazeData wGps [negAoi] noOptions).fixations.length = 1 := by
  constructor
  · decide
  · decide

theorem countEntries_eq_risingEdges (aoi : AOI) :
    ∀ (fs : List Fixation) (prev : Bool),
      countEntries aoi prev fs
        = ((prev :: fs.map (fun f => isPointInAOI f.x f.y aoi)).zip
            (fs.map (fun f => isPointInAOI f.x f.y aoi))).countP
            (fun p => p.2 && !p.1) := by
  intro fs
  induction fs with
  | nil => intro prev; simp [countEntries]
  | cons f rest ih =>
    intro prev
    simp only [countEntries, List.map_cons, List.zip_cons_cons,
      List.countP_cons, ih (isPointInAOI f.x f.y aoi)]
    simp only [Bool.and_eq_true, Bool.not_eq_eq_eq_not]
    exact Nat.add_comm _ _

/-- C7: for each AOI, the `entryCount` returned by `calculateFirstFixation`
is exactly the number of rising edges of the in-AOI Boolean sequence of the
time-ordered fixations, the initial state being outside — so a first fixation
already inside the AOI counts as an entry. -/
theorem calculateFirstFixation_entryCount
    (fixations : List Fixation) (aois : List AOI) (videoStartTime : ℚ) :
    (calculateFirstFixation fixations aois videoStartTime).map
        (fun r => r.entryCount)
      = aois.map (fun aoi =>
          specRisingEdgeCount ((sortFixations fixations).map
            (fun f => isPointInAOI f.x f.y aoi))) := by
  simp only [calculateFirstFixation, List.map_map, Function.comp_def]
  apply List.map_congr_left
  intro aoi _
  simp only [specRisingEdgeCount]
  exact countEntries_eq_risingEdges aoi (sortFixations fixations) false

attribute [local semireducible] Rat.add Rat.mul Rat.inv Rat.sub in
/-- C8 counterexample: one analysis (a single fixation, no AOIs) surfaces the
outside sentinel as three different strings: the dwell record is named
`"Outside AOIs"`, the scanpath AOI sequence holds `"__outside__"`, and the
fixations CSV aoi cell holds `"outside"`. -/
theorem outside_sentinel_inconsistent :
    (calculateDwellTime [c3Fix] []).map (fun s => s.aoiName)
        = ["Outside AOIs"]
      ∧ (calculateScanpathMetrics [c3Fix] []).aoiSequence = ["__outside__"]
      ∧ fixationCSVAOICell c3Fix [] = "outside"
      ∧ ("Outside AOIs" ≠ "__outside__" ∧ "__outside__" ≠ "outside"
          ∧ "Outside AOIs" ≠ "outside") := by
  exact ⟨by decide, by decide, by decide, by decide, by decide, by decide⟩

/-- C8 as amended: the outside sentinel is spelled differently in each
output — the dwell-time list always ends with a record named
`"Outside AOIs"`, while a fixation matching no AOI is labelled
`"__outside__"` in the scanpath sequence and transition keys but
`"outside"` in the fixations CSV aoi column. -/
theorem outside_sentinel_spellings (fs : List Fixation) (aois : List AOI)
    (f : Fixation) (h : findAOIForFixation f aois = none) :
    ((calculateDwellTime fs aois).map (fun s => s.aoiName)).getLast?
        = some ("Outside AOIs")
      ∧ scanpathAOILabel f aois = "__outside__"
      ∧ fixationCSVAOICell f aois = "outside" := by
  refine ⟨?_, ?_, ?_⟩
  · simp only [calculateDwellTime, List.map_append, List.map_cons,
      List.map_nil]
    exact List.getLast?_concat _
  · simp [scanpathAOILabel, h]
  · unfold fixationCSVAOICell
    unfold findAOIForFixation at h
    rw [h]

attribute [local semireducible] Rat.add Rat.mul Rat.inv Rat.sub in
/-- Witness for the amended C8 at a concrete outside fixation. -/
theorem outside_sentinel_spellings_witness :
    findAOIForFixation c3Fix [] = none ∧
      (((calculateDwellTime [c3Fix] []).map (fun s => s.aoiName)).getLast?
          = some ("Outside AOIs")
        ∧ scanpathAOILabel c3Fix [] = "__outside__"
        ∧ fixationCSVAOICell c3Fix [] = "outside") :=
  ⟨by decide, outside_sentinel_spellings [c3Fix] [] c3Fix (by decide)⟩

theorem mapGet?_eq_none_of_not_has {β : Type} (m : List (String × β))
    (k : String) (h : mapHas m k = false) : mapGet? m k = none := by
  unfold mapGet?
  unfold mapHas at h
  have hf : List.find? (fun p => decide (p.1 = k)) m = none := by
    rw [List.find?_eq_none]
    intro x hx
    have := List.any_eq_false.mp h x hx
    simpa using this
  rw [hf]
  rfl

theorem rowSum_mapSet (row : List (String × ℕ)) (k : String) (v : ℕ) :
    ((mapSet row k v).map (fun cell => cell.2)).sum + (mapGet? row k).getD 0
      = (row.map (fun cell => cell.2)).sum + v := by
  induction row with
  | nil => simp [mapSet, mapGet?]
  | cons c rest ih =>
    rcases c with ⟨k2, v2⟩
    by_cases hk : k2 = k
    · subst hk
      simp only [mapSet, if_pos rfl, mapGet?, List.map_cons, List.sum_cons]
      have hfind :
          List.find? (fun p => decide (p.1 = k2)) ((k2, v2) :: rest)
            = some (k2, v2) :=
        List.find?_cons_of_pos rest (by simp)
      rw [hfind]
      simp
      omega
    · simp only [mapSet, if_neg hk, List.map_cons, List.sum_cons]
      have hfind :
          List.find? (fun p => decide (p.1 = k)) ((k2, v2) :: rest)
            = List.find? (fun p => decide (p.1 = k)) rest :=
        List.find?_cons_of_neg rest (by simp [hk])
      unfold mapGet?
      rw [hfind]
      have ihu := ih
      unfold mapGet? at ihu
      omega

theorem matrixTotal_mapSet (m : List (String × List (String × ℕ)))
    (k : String) (row2 : List (String × ℕ)) :
    matrixTotal (mapSet m k row2)
        + (((mapGet? m k).getD []).map (fun cell => cell.2)).sum
      = matrixTotal m + (row2.map (fun cell => cell.2)).sum := by
  induction m with
  | nil => simp [mapSet, mapGet?, matrixTotal]
  | cons c rest ih =>
    rcases c with ⟨k2, row⟩
    by_cases hk : k2 = k
    · subst hk
      simp only [mapSet, if_pos rfl, matrixTotal, List.map_cons,
        List.sum_cons]
      have hfind :
          List.find? (fun p => decide (p.1 = k2)) ((k2, row) :: rest)
            = some (k2, row) :=
        List.find?_cons_of_pos rest (by simp)
      unfold mapGet?
      rw [hfind]
      simp
      omega
    · simp only [mapSet, if_neg hk, matrixTotal, List.map_cons,
        List.sum_cons]
      have hfind :
          List.find? (fun p => decide (p.1 = k)) ((k2, row) :: rest)
            = List.find? (fun p => decide (p.1 = k)) rest :=
        List.find?_cons_of_neg rest (by simp [hk])
      unfold mapGet?
      rw [hfind]
      have ihu := ih
      unfold matrixTotal mapGet? at ihu
      omega

theorem matrixTotal_bumpTransition (m : List (String × List (String × ℕ)))
    (p c : String) :
    matrixTotal (bumpTransition m p c) = matrixTotal m + 1 := by
  unfold bumpTransition
  dsimp only
  have hm1 : matrixTotal
      (if mapHas m p then m else mapSet m p []) = matrixTotal m := by
    rcases Bool.eq_false_or_eq_true (mapHas m p) with h | h
    · rw [if_pos h]
    · rw [if_neg (by simp [h])]
      have h2 := matrixTotal_mapSet m p []
      rw [mapGet?_eq_none_of_not_has m p h] at h2
      simpa using h2
  have hrow := rowSum_mapSet
    ((mapGet? (if mapHas m p then m else mapSet m p []) p).getD []) c
    ((mapGet? ((mapGet? (if mapHas m p then m else mapSet m p []) p).getD [])
      c).getD 0 + 1)
  have houter := matrixTotal_mapSet
    (if mapHas m p then m else mapSet m p []) p
    (mapSet ((mapGet? (if mapHas m p then m else mapSet m p []) p).getD []) c
      ((mapGet? ((mapGet? (if mapHas m p then m else mapSet m p [])
        p).getD []) c).getD 0 + 1))
  omega

theorem matrixTotal_foldl (aois : List AOI)
    (l : List (Fixation × Fixation)) :
    ∀ m, matrixTotal (l.foldl (fun acc pc =>
        bumpTransition acc (scanpathAOILabel pc.1 aois)
          (scanpathAOILabel pc.2 aois)) m)
      = matrixTotal m + l.length := by
  induction l with
  | nil => intro m; simp
  | cons pc l ih =>
    intro m
    simp only [List.foldl_cons, ih, matrixTotal_bumpTransition,
      List.length_cons]
    omega

/-- C10: for a non-empty fixation list, the counts stored in the transition
matrix returned by `calculateScanpathMetrics` sum to `fixationCount - 1`:
each consecutive pair of time-ordered fixations performs exactly one
increment, keyed by the pair's uncollapsed per-fixation AOI labels. -/
theorem aoiTransitionMatrix_total (fs : List Fixation) (aois : List AOI)
    (h : fs ≠ []) :
    matrixTotal (calculateScanpathMetrics fs aois).aoiTransitionMatrix
      = fs.length - 1 := by
  unfold calculateScanpathMetrics
  rw [if_neg (by simpa using h)]
  dsimp only
  rw [matrixTotal_foldl]
  have hlen : (sortFixations fs).length = fs.length := by
    unfold sortFixations
    exact List.length_insertionSort fixLE fs
  simp only [matrixTotal, List.map_nil, List.sum_nil, Nat.zero_add,
    List.length_zip, List.length_tail, hlen]
  omega

attribute [local semireducible] Rat.add Rat.mul Rat.inv Rat.sub in
/-- Witness for C10 at a one-fixation input: the matrix is empty and its
total is 0 = 1 - 1. -/
theorem aoiTransitionMatrix_total_witness :
    ([c3Fix] ≠ ([] : List Fixation)) ∧
      matrixTotal (calculateScanpathMetrics [c3Fix] []).aoiTransitionMatrix
        = [c3Fix].length - 1 :=
  ⟨by decide, aoiTransitionMatrix_total [c3Fix] [] (by decide)⟩
